import Mathlib

/-!
Formal model of `src/components/Preview.tsx`.

The `TimeDisplay` widget is embedded as an explicit state machine:
the component state (`TimeState`, the source's `timestamp`/`isHydrated`
pair), the `mode` prop, and the `setInterval` handle are collected in
`WidgetState`.  React's effect scheduling is reflected directly:

* the hydration effect (source lines 88-95) has an empty dependency
  array, so React runs it exactly once, right after the first commit;
  this is embedded structurally by `afterInit`, which applies
  `hydrationEffect` once per mount;
* the update effect (source lines 107-129) re-runs whenever its
  dependencies `[mode, timeData.isHydrated]` change; React first calls
  the previous cleanup (`clearInterval`) and then the effect body, which
  arms a fresh interval iff `mode === 'client' && timeData.isHydrated`.
  The net result of cleanup-then-body is `runUpdateEffect`;
* interval handles are modelled as natural numbers allocated from the
  monotone counter `nextTimer`; `activeTimer` is the handle of the
  currently armed interval, if any.  A `tick` event carries the handle
  of the interval that fires; the browser only fires callbacks of
  intervals that have not been cleared, so a `tick` whose handle is not
  the active one is a no-op;
* the debug-only sub-text gated on `process.env.NODE_ENV` (source line
  177) is incidental and not modelled.

In the spec's vocabulary, `Mode.client` is *periodic-update* and
`Mode.server` is *no-update*; `TimeState.timestamp` is `timestampText`
and `TimeState.isHydrated` is `initialized`.
-/

namespace Preview

/-- The source's `RenderMode.mode`: `'client'` (spec: periodic-update)
or `'server'` (spec: no-update). -/
inductive Mode where
  | client
  | server
  deriving DecidableEq

/-- The source's `TimeState`: `timestamp` is the spec's `timestampText`,
`isHydrated` is the spec's `initialized` flag. -/
structure TimeState where
  timestamp : String
  isHydrated : Bool
  deriving DecidableEq

/-- The `useState` initial value (source lines 75-78): empty timestamp,
not hydrated. -/
def initialTimeState : TimeState :=
  { timestamp := "", isHydrated := false }

/-- The body of the hydration effect (source lines 91-94): `setTimeData`
with the current time and `isHydrated: true`.  The call passes a fresh
object, not an updater, so the previous state is not consulted. -/
def hydrationEffect (now : String) : TimeState :=
  { timestamp := now, isHydrated := true }

/-- The interval callback (source lines 116-119): functional update that
spreads the previous state and overwrites only `timestamp`. -/
def intervalCallback (now : String) (prev : TimeState) : TimeState :=
  { prev with timestamp := now }

/-- Full runtime state of one mounted `TimeDisplay` instance: component
state, the `mode` prop, the armed interval handle (if any), and the
allocator for fresh interval handles. -/
structure WidgetState where
  timeData : TimeState
  mode : Mode
  activeTimer : Option Nat
  nextTimer : Nat
  deriving DecidableEq

/-- Net effect of one run of the update effect (source lines 107-129):
React calls the previous cleanup (`clearInterval`, lines 123-127) and
then the body, which arms a fresh interval iff
`mode === 'client' && timeData.isHydrated` (line 110). -/
def runUpdateEffect (s : WidgetState) : WidgetState :=
  if s.mode = Mode.client ∧ s.timeData.isHydrated = true then
    { s with activeTimer := some s.nextTimer, nextTimer := s.nextTimer + 1 }
  else
    { s with activeTimer := none }

/-- State at the first commit of a mount with prop `m`: initial
component state, no interval armed (the update effect ran with
`isHydrated = false`, so its guard failed). -/
def mount (m : Mode) : WidgetState :=
  { timeData := initialTimeState, mode := m, activeTimer := none, nextTimer := 0 }

/-- Transient state right after the hydration effect's `setTimeData`
commits, before the update effect re-runs on the dependency change. -/
def hydrateCommit (m : Mode) (t0 : String) : WidgetState :=
  { mount m with timeData := hydrationEffect t0 }

/-- State once initialization has settled: the hydration effect has run
(once, per its empty dependency array) and the update effect has re-run
on the `isHydrated` dependency change. -/
def afterInit (m : Mode) (t0 : String) : WidgetState :=
  runUpdateEffect (hydrateCommit m t0)

/-- Events delivered to a mounted widget after initialization: an
interval callback firing (carrying its handle and the clock reading), or
the parent toggling the `mode` prop. -/
inductive Event where
  | tick (id : Nat) (now : String)
  | setMode (m : Mode)
  deriving DecidableEq

/-- Marks the mode-toggle events (the spec's "mode switch"). -/
def Event.isModeSwitch : Event → Bool
  | Event.setMode _ => true
  | Event.tick _ _ => false

/-- One step of the widget.  A `tick` runs the interval callback iff its
handle is still the armed one (`clearInterval` guarantees a cleared
interval never fires).  A `setMode` with an unchanged value is a no-op
(the effect's dependencies do not change); otherwise the update effect
re-runs with the new prop. -/
def step (s : WidgetState) : Event → WidgetState
  | Event.tick id now =>
      if s.activeTimer = some id then
        { s with timeData := intervalCallback now s.timeData }
      else
        s
  | Event.setMode m =>
      if m = s.mode then s else runUpdateEffect { s with mode := m }

/-- Run a list of events from a state. -/
def run (s : WidgetState) (es : List Event) : WidgetState :=
  es.foldl step s

/-- Teardown (unmount): React runs the pending cleanup, which calls
`clearInterval` on the armed interval (source lines 123-127); the
component state is then discarded. -/
def unmount (s : WidgetState) : WidgetState :=
  { s with activeTimer := none }

/-- Checks the exact shape of `Date.prototype.toISOString` output
(`YYYY-MM-DDTHH:MM:SS.mmmZ`): position `i` must hold the matching
punctuation character or a digit. -/
def isoCharOK (i : Nat) (c : Char) : Bool :=
  if i = 4 ∨ i = 7 then c = '-'
  else if i = 10 then c = 'T'
  else if i = 13 ∨ i = 16 then c = ':'
  else if i = 19 then c = '.'
  else if i = 23 then c = 'Z'
  else c.isDigit

/-- Checks characters from position `i` on; a valid string ends exactly
at position 24. -/
def isoCheckFrom : Nat → List Char → Bool
  | 24, [] => true
  | _, [] => false
  | i, c :: cs => isoCharOK i c && isoCheckFrom (i + 1) cs

/-- The contract of the external clock (`new Date().toISOString()`,
spec §6): a 24-character ISO-8601 timestamp. -/
def isValidISO8601 (s : String) : Bool :=
  isoCheckFrom 0 s.data

/-- A sample clock reading used to instantiate universally quantified
statements. -/
def sampleISO : String := "2024-01-02T03:04:05.678Z"

/-- The three-way render of `TimeDisplay` is either the loading
placeholder or the main view; the main view's varying pieces are the
indicator class (source lines 152-157), the mode label (line 159), the
timestamp (line 166) and the mode message (lines 171-173). -/
structure MainView where
  indicatorClass : String
  modeLabel : String
  timestampText : String
  modeMessage : String
  deriving DecidableEq

/-- Rendered output of `TimeDisplay`. -/
inductive RenderOutput where
  | loading
  | main (v : MainView)
  deriving DecidableEq

/-- The render function (source lines 131-184): loading placeholder
while `timeData.timestamp` is falsy (the empty string), otherwise the
main view with mode-dependent indicator, label and message. -/
def render (mode : Mode) (td : TimeState) : RenderOutput :=
  if td.timestamp = "" then
    RenderOutput.loading
  else
    RenderOutput.main
      { indicatorClass :=
          if mode = Mode.client ∧ td.isHydrated = true then
            "bg-green-500 animate-pulse"
          else
            "bg-blue-500"
        modeLabel :=
          if mode = Mode.client then "Client Rendered" else "Server Rendered"
        timestampText := td.timestamp
        modeMessage :=
          if mode = Mode.client then
            "Live updating with Suspense"
          else
            "Static server render with Suspense" }

/-- Reachable states of one mounted widget, under the environment
contract that every clock reading is a valid ISO-8601 string. -/
inductive Reachable : WidgetState → Prop where
  | mounted (m : Mode) : Reachable (mount m)
  | hydrating (m : Mode) (t0 : String) (ht : isValidISO8601 t0 = true) :
      Reachable (hydrateCommit m t0)
  | hydrated (m : Mode) (t0 : String) (ht : isValidISO8601 t0 = true) :
      Reachable (afterInit m t0)
  | ticked {s : WidgetState} (i : Nat) (now : String)
      (ht : isValidISO8601 now = true) (hs : Reachable s) :
      Reachable (step s (Event.tick i now))
  | toggled {s : WidgetState} (m : Mode) (hs : Reachable s) :
      Reachable (step s (Event.setMode m))

/-! ### Basic lemmas about the transition functions -/

/-- A valid ISO-8601 clock reading is nonempty (it has 24 characters). -/
theorem validISO_ne_empty {s : String} (h : isValidISO8601 s = true) : s ≠ "" := by
  intro he
  rw [he] at h
  exact absurd h (by decide)

/-- The update effect never touches the component state. -/
theorem runUpdateEffect_timeData (s : WidgetState) :
    (runUpdateEffect s).timeData = s.timeData := by
  simp only [runUpdateEffect]
  split <;> rfl

/-- No step changes the `isHydrated` flag: the interval callback spreads
the previous state, and mode toggles only re-run the update effect. -/
theorem step_isHydrated (s : WidgetState) (e : Event) :
    (step s e).timeData.isHydrated = s.timeData.isHydrated := by
  cases e with
  | tick id now =>
      simp only [step]
      split <;> rfl
  | setMode m =>
      simp only [step]
      split
      · rfl
      · simp only [runUpdateEffect]
        split <;> rfl

theorem run_nil (s : WidgetState) : run s [] = s := rfl

theorem run_cons (s : WidgetState) (e : Event) (es : List Event) :
    run s (e :: es) = run (step s e) es := rfl

/-- No run of events changes the `isHydrated` flag. -/
theorem run_isHydrated (s : WidgetState) (es : List Event) :
    (run s es).timeData.isHydrated = s.timeData.isHydrated := by
  induction es generalizing s with
  | nil => rfl
  | cons e es ih => rw [run_cons, ih, step_isHydrated]

/-- A tick whose handle is not the armed one does nothing
(`clearInterval` semantics). -/
theorem tick_noop {i : Nat} {now : String} {s : WidgetState}
    (h : s.activeTimer ≠ some i) :
    step s (Event.tick i now) = s := by
  simp only [step]
  rw [if_neg h]

/-! ### The reachable-state invariant -/

/-- Invariant of reachable states: the spec's §3 invariant on the
component state, and soundness of the timer resource (an armed interval
exists only in client mode after hydration, and its handle was
allocated below `nextTimer`). -/
def Inv (s : WidgetState) : Prop :=
  (s.timeData.timestamp = "" ↔ s.timeData.isHydrated = false) ∧
  ∀ i, s.activeTimer = some i →
    s.mode = Mode.client ∧ s.timeData.isHydrated = true ∧ i < s.nextTimer

theorem inv_mount (m : Mode) : Inv (mount m) := by
  constructor
  · simp [mount, initialTimeState]
  · intro i hi
    exact Option.noConfusion hi

theorem inv_hydrateCommit (m : Mode) (t0 : String)
    (ht : isValidISO8601 t0 = true) : Inv (hydrateCommit m t0) := by
  constructor
  · simp [hydrateCommit, hydrationEffect, mount, validISO_ne_empty ht]
  · intro i hi
    exact Option.noConfusion hi

theorem inv_runUpdateEffect {s : WidgetState}
    (h1 : s.timeData.timestamp = "" ↔ s.timeData.isHydrated = false) :
    Inv (runUpdateEffect s) := by
  simp only [runUpdateEffect]
  split
  case isTrue hc =>
    refine ⟨h1, fun j hj => ?_⟩
    have hj' : s.nextTimer = j := by injection hj
    subst hj'
    exact ⟨hc.1, hc.2, Nat.lt_succ_self _⟩
  case isFalse =>
    exact ⟨h1, fun j hj => Option.noConfusion hj⟩

theorem inv_tick {s : WidgetState} (h : Inv s) (i : Nat) (now : String)
    (ht : isValidISO8601 now = true) : Inv (step s (Event.tick i now)) := by
  obtain ⟨h1, h2⟩ := h
  simp only [step]
  split
  case isTrue hact =>
    obtain ⟨hm, hh, hlt⟩ := h2 i hact
    constructor
    · simp [intervalCallback, hh, validISO_ne_empty ht]
    · intro j hj
      exact h2 j hj
  case isFalse =>
    exact ⟨h1, h2⟩

theorem inv_setMode {s : WidgetState} (h : Inv s) (m : Mode) :
    Inv (step s (Event.setMode m)) := by
  simp only [step]
  split
  · exact h
  · exact inv_runUpdateEffect h.1

/-- Every reachable state satisfies the invariant. -/
theorem reachable_inv {s : WidgetState} (h : Reachable s) : Inv s := by
  induction h with
  | mounted m => exact inv_mount m
  | hydrating m t0 ht => exact inv_hydrateCommit m t0 ht
  | hydrated m t0 ht => exact inv_runUpdateEffect (inv_hydrateCommit m t0 ht).1
  | ticked i now ht hs ih => exact inv_tick ih i now ht
  | toggled m hs ih => exact inv_setMode ih m

/-! ### Cancelled interval handles stay dead -/

/-- Handle `i` has been cleared: it is not the armed interval, and it
was allocated strictly below the allocation counter, so no later arming
can reuse it. -/
def Dead (i : Nat) (s : WidgetState) : Prop :=
  s.activeTimer ≠ some i ∧ i < s.nextTimer

theorem dead_runUpdateEffect {i : Nat} {s : WidgetState}
    (h : i < s.nextTimer) : Dead i (runUpdateEffect s) := by
  simp only [runUpdateEffect]
  split
  · constructor
    · intro hc
      have hc' : s.nextTimer = i := by injection hc
      omega
    · exact Nat.lt_succ_of_lt h
  · exact ⟨fun hc => Option.noConfusion hc, h⟩

theorem dead_step {i : Nat} {s : WidgetState} (h : Dead i s) (e : Event) :
    Dead i (step s e) := by
  obtain ⟨h1, h2⟩ := h
  cases e with
  | tick id now =>
      simp only [step]
      split
      · exact ⟨h1, h2⟩
      · exact ⟨h1, h2⟩
  | setMode m =>
      simp only [step]
      split
      · exact ⟨h1, h2⟩
      · exact dead_runUpdateEffect h2

theorem dead_run {i : Nat} {s : WidgetState} (h : Dead i s)
    (es : List Event) : Dead i (run s es) := by
  induction es generalizing s with
  | nil => exact h
  | cons e es ih => exact ih (dead_step h e)

/-- With no interval armed, a run containing no mode switch is inert. -/
theorem run_no_switch_noop {s : WidgetState} (hnone : s.activeTimer = none)
    {es : List Event} (hes : ∀ e ∈ es, e.isModeSwitch = false) :
    run s es = s := by
  induction es with
  | nil => rfl
  | cons e es ih =>
      cases e with
      | tick id now =>
          rw [run_cons, tick_noop (by rw [hnone]; exact fun hc => Option.noConfusion hc)]
          exact ih fun e he => hes e (List.mem_cons_of_mem _ he)
      | setMode m =>
          have hc := hes (Event.setMode m) (List.mem_cons_self _ _)
          simp [Event.isModeSwitch] at hc

/-! ### Timed model of the armed interval (spec §5, §8.3)

`setInterval(cb, 1000)` armed at wall-clock time `T` fires its callback
at `T + 1000`, `T + 2000`, …; `tickTimes T k` is the time of the
`k`-th firing and `runTicks` is the widget state after `k` firings,
reading the external clock at each firing instant. -/

def tickTimes (T k : Nat) : Nat := T + 1000 * (k + 1)

def runTicks (clock : Nat → String) (i T : Nat) (s : WidgetState) :
    Nat → WidgetState
  | 0 => s
  | k + 1 => step (runTicks clock i T s k) (Event.tick i (clock (tickTimes T k)))

/-- A tick of the armed interval runs the callback. -/
theorem step_tick_armed {s : WidgetState} {i : Nat} (now : String)
    (h : s.activeTimer = some i) :
    step s (Event.tick i now) =
      { s with timeData := intervalCallback now s.timeData } := by
  simp only [step, if_pos h]

/-- After the `k`-th firing the timestamp is the clock reading at the
`k`-th firing instant, and the interval stays armed (ticks do not
change the effect dependencies, so the effect does not re-run). -/
theorem runTicks_spec (clock : Nat → String) (i T : Nat) (s : WidgetState)
    (harm : s.activeTimer = some i) :
    ∀ k, (runTicks clock i T s (k + 1)).timeData.timestamp = clock (tickTimes T k) ∧
      (runTicks clock i T s (k + 1)).activeTimer = some i := by
  intro k
  induction k with
  | zero =>
      rw [show runTicks clock i T s 1
            = step s (Event.tick i (clock (tickTimes T 0))) from rfl,
          step_tick_armed _ harm]
      exact ⟨rfl, harm⟩
  | succ k ih =>
      obtain ⟨ih1, ih2⟩ := ih
      rw [show runTicks clock i T s (k + 1 + 1)
            = step (runTicks clock i T s (k + 1))
                (Event.tick i (clock (tickTimes T (k + 1)))) from rfl,
          step_tick_armed _ ih2]
      exact ⟨rfl, ih2⟩

/-! ### A concrete strictly monotone clock, for instantiating C6 -/

/-- A clock whose reading at instant `n` is the string of `n` copies of
`a`; strictly monotone for the lexicographic order on strings. -/
def unaryClock (n : Nat) : String := String.mk (List.replicate n 'a')

theorem lex_replicate : ∀ a b : Nat, a < b →
    List.Lex (· < ·) (List.replicate a 'a') (List.replicate b 'a')
  | 0, _ + 1, _ => List.Lex.nil
  | a + 1, b + 1, h => List.Lex.cons (lex_replicate a b (Nat.lt_of_succ_lt_succ h))

theorem unaryClock_strictMono (a b : Nat) (h : a < b) :
    unaryClock a < unaryClock b := by
  rw [String.lt_iff_toList_lt]
  exact lex_replicate a b h

/-- The two fully initialized views of the widget (source lines
148-184), as functions of the displayed timestamp: the live view with
the green pulsing indicator, and the static view with the blue
indicator. -/
def liveView (ts : String) : MainView :=
  { indicatorClass := "bg-green-500 animate-pulse"
    modeLabel := "Client Rendered"
    timestampText := ts
    modeMessage := "Live updating with Suspense" }

def staticView (ts : String) : MainView :=
  { indicatorClass := "bg-blue-500"
    modeLabel := "Server Rendered"
    timestampText := ts
    modeMessage := "Static server render with Suspense" }

/-- The two initialized views are visually distinct (different
indicator classes), whatever timestamp they display. -/
theorem liveView_ne_staticView (ts : String) : liveView ts ≠ staticView ts := by
  intro h
  have hc : "bg-green-500 animate-pulse" = "bg-blue-500" :=
    congrArg MainView.indicatorClass h
  exact absurd hc (by decide)

/-! ### The claims -/

/-- C1: in every reachable state of the widget (initial mount, after
the initialization effect, after any number of timer ticks, across any
sequence of mode toggles), the timestamp text is the empty string if
and only if the initialized flag is false. -/
theorem c1_timestamp_empty_iff_uninitialized (s : WidgetState)
    (h : Reachable s) :
    s.timeData.timestamp = "" ↔ s.timeData.isHydrated = false :=
  (reachable_inv h).1

theorem c1_witness :
    ((afterInit Mode.client sampleISO).timeData.timestamp = "" ↔
      (afterInit Mode.client sampleISO).timeData.isHydrated = false) :=
  c1_timestamp_empty_iff_uninitialized (afterInit Mode.client sampleISO)
    (Reachable.hydrated Mode.client sampleISO (by decide))

/-- C2: per mount, the initialization transition is applied exactly
once (structurally, by the empty dependency array of the hydration
effect); immediately after it the initialized flag is true and the
timestamp text is the clock reading, a valid ISO-8601 string; and no
later event ever takes the flag back, so the
`Uninitialized → Initialized` transition cannot fire a second time. -/
theorem c2_single_initialization (m : Mode) (t0 : String) (es : List Event)
    (h : isValidISO8601 t0 = true) :
    (afterInit m t0).timeData.isHydrated = true ∧
    (afterInit m t0).timeData.timestamp = t0 ∧
    isValidISO8601 (afterInit m t0).timeData.timestamp = true ∧
    (run (afterInit m t0) es).timeData.isHydrated = true := by
  have h1 : (afterInit m t0).timeData = hydrationEffect t0 := by
    rw [afterInit, runUpdateEffect_timeData]
    rfl
  refine ⟨by rw [h1]; rfl, by rw [h1]; rfl, by rw [h1]; exact h, ?_⟩
  rw [run_isHydrated, h1]
  rfl

theorem c2_witness :
    (afterInit Mode.server sampleISO).timeData.isHydrated = true ∧
    (afterInit Mode.server sampleISO).timeData.timestamp = sampleISO ∧
    isValidISO8601 (afterInit Mode.server sampleISO).timeData.timestamp = true ∧
    (run (afterInit Mode.server sampleISO)
        [Event.setMode Mode.client, Event.tick 1 sampleISO]).timeData.isHydrated = true :=
  c2_single_initialization Mode.server sampleISO
    [Event.setMode Mode.client, Event.tick 1 sampleISO] (by decide)

/-- C3: the recurring interval is armed only in states where
initialization has completed, so the initialization transition occurs
strictly before any periodic-update callback can fire; in particular a
tick delivered to the freshly mounted, uninitialized widget does
nothing. -/
theorem c3_init_before_any_tick (s : WidgetState) (i : Nat) (m : Mode)
    (id : Nat) (now : String) (h : Reachable s)
    (hact : s.activeTimer = some i) :
    s.timeData.isHydrated = true ∧
    step (mount m) (Event.tick id now) = mount m := by
  refine ⟨((reachable_inv h).2 i hact).2.1, ?_⟩
  exact tick_noop fun hc => Option.noConfusion hc

theorem c3_witness :
    (afterInit Mode.client sampleISO).timeData.isHydrated = true ∧
    step (mount Mode.client) (Event.tick 0 sampleISO) = mount Mode.client :=
  c3_init_before_any_tick (afterInit Mode.client sampleISO) 0 Mode.client 0
    sampleISO (Reachable.hydrated Mode.client sampleISO (by decide)) rfl

/-- C9: at every initial mount, whatever the supplied mode, the first
rendered output is the loading placeholder, and the component state at
that point has an empty timestamp and the initialized flag false. -/
theorem c9_first_render_is_loading (m : Mode) :
    render m (mount m).timeData = RenderOutput.loading ∧
    (mount m).timeData.timestamp = "" ∧
    (mount m).timeData.isHydrated = false :=
  ⟨rfl, rfl, rfl⟩

/-- C10: the initialized flag is monotone: once true it stays true
under any sequence of ticks and mode toggles, and a re-run of the
update effect leaves the component state untouched altogether. -/
theorem c10_initialized_monotone (s : WidgetState) (es : List Event)
    (h : s.timeData.isHydrated = true) :
    (run s es).timeData.isHydrated = true ∧
    (runUpdateEffect s).timeData = s.timeData := by
  refine ⟨?_, runUpdateEffect_timeData s⟩
  rw [run_isHydrated, h]

theorem c10_witness :
    (run (afterInit Mode.server sampleISO)
        [Event.setMode Mode.client, Event.tick 1 sampleISO,
          Event.setMode Mode.server]).timeData.isHydrated = true ∧
    (runUpdateEffect (afterInit Mode.server sampleISO)).timeData
      = (afterInit Mode.server sampleISO).timeData :=
  c10_initialized_monotone (afterInit Mode.server sampleISO)
    [Event.setMode Mode.client, Event.tick 1 sampleISO,
      Event.setMode Mode.server] (by decide)

/-- C4: toggling the mode from periodic-update (`client`) to no-update
(`server`) re-runs the update effect, whose cleanup clears the armed
interval before the step returns, and teardown likewise clears it; the
cancelled interval handle is never re-armed (fresh handles come from
the monotone allocator), so its callback never runs again at any later
point, and no callback at all runs after teardown. -/
theorem c4_cancel_stops_callbacks (s : WidgetState) (i j : Nat)
    (now : String) (es : List Event) (h : Reachable s)
    (hact : s.activeTimer = some i) :
    (step s (Event.setMode Mode.server)).activeTimer = none ∧
    step (run (step s (Event.setMode Mode.server)) es) (Event.tick i now)
      = run (step s (Event.setMode Mode.server)) es ∧
    (unmount s).activeTimer = none ∧
    step (unmount s) (Event.tick j now) = unmount s := by
  obtain ⟨hm, hh, hlt⟩ := (reachable_inv h).2 i hact
  have hs' : step s (Event.setMode Mode.server)
      = runUpdateEffect { s with mode := Mode.server } := by
    simp only [step]
    rw [if_neg (by rw [hm]; exact fun hc => Mode.noConfusion hc)]
  have hdead : Dead i (run (step s (Event.setMode Mode.server)) es) := by
    refine dead_run ?_ es
    rw [hs']
    exact dead_runUpdateEffect hlt
  refine ⟨?_, tick_noop hdead.1, rfl, tick_noop fun hc => Option.noConfusion hc⟩
  rw [hs', runUpdateEffect]
  rw [if_neg fun hc => Mode.noConfusion hc.1]

theorem c4_witness :
    (step (afterInit Mode.client sampleISO) (Event.setMode Mode.server)).activeTimer = none ∧
    step (run (step (afterInit Mode.client sampleISO) (Event.setMode Mode.server))
          [Event.setMode Mode.client]) (Event.tick 0 sampleISO)
      = run (step (afterInit Mode.client sampleISO) (Event.setMode Mode.server))
          [Event.setMode Mode.client] ∧
    (unmount (afterInit Mode.client sampleISO)).activeTimer = none ∧
    step (unmount (afterInit Mode.client sampleISO)) (Event.tick 0 sampleISO)
      = unmount (afterInit Mode.client sampleISO) :=
  c4_cancel_stops_callbacks (afterInit Mode.client sampleISO) 0 0 sampleISO
    [Event.setMode Mode.client]
    (Reachable.hydrated Mode.client sampleISO (by decide)) rfl

/-- C5: in no-update (`server`) mode, once initialized, no interval is
armed (the reachable-state invariant), so any sequence of events that
contains no mode switch leaves the timestamp text unchanged. -/
theorem c5_no_update_mode_freezes_timestamp (s : WidgetState)
    (es : List Event) (h : Reachable s) (hm : s.mode = Mode.server)
    (hh : s.timeData.isHydrated = true)
    (hes : ∀ e ∈ es, e.isModeSwitch = false) :
    (run s es).timeData.timestamp = s.timeData.timestamp := by
  have hnone : s.activeTimer = none := by
    cases hact : s.activeTimer with
    | none => rfl
    | some i =>
        have hcl := ((reachable_inv h).2 i hact).1
        rw [hm] at hcl
        exact absurd hcl (by decide)
  rw [run_no_switch_noop hnone hes]

theorem c5_witness :
    (run (afterInit Mode.server sampleISO)
        [Event.tick 0 sampleISO, Event.tick 1 sampleISO]).timeData.timestamp
      = (afterInit Mode.server sampleISO).timeData.timestamp :=
  c5_no_update_mode_freezes_timestamp (afterInit Mode.server sampleISO)
    [Event.tick 0 sampleISO, Event.tick 1 sampleISO]
    (Reachable.hydrated Mode.server sampleISO (by decide)) rfl (by decide)
    (by decide)

/-- C6: with an armed interval (periodic-update mode after
initialization) and a strictly increasing external clock, each firing
of the interval strictly increases the timestamp text — so the sequence
of displayed values is monotonically non-decreasing and changes at
every firing — and consecutive firings are exactly 1000 ms apart,
within the spec's 1000±50 ms window. -/
theorem c6_periodic_mode_updates (clock : Nat → String) (s : WidgetState)
    (i t0 T k : Nat)
    (hmono : ∀ a b : Nat, a < b → clock a < clock b)
    (harm : s.activeTimer = some i)
    (hts : s.timeData.timestamp = clock t0)
    (ht0 : t0 < tickTimes T 0) :
    (runTicks clock i T s k).timeData.timestamp
      < (runTicks clock i T s (k + 1)).timeData.timestamp ∧
    tickTimes T (k + 1) = tickTimes T k + 1000 := by
  constructor
  · cases k with
    | zero =>
        rw [(runTicks_spec clock i T s harm 0).1,
            show runTicks clock i T s 0 = s from rfl, hts]
        exact hmono t0 (tickTimes T 0) ht0
    | succ k =>
        rw [(runTicks_spec clock i T s harm (k + 1)).1,
            (runTicks_spec clock i T s harm k).1]
        exact hmono _ _ (by simp only [tickTimes]; omega)
  · simp only [tickTimes]
    omega

theorem c6_witness :
    (runTicks unaryClock 0 5 (afterInit Mode.client (unaryClock 5)) 0).timeData.timestamp
      < (runTicks unaryClock 0 5 (afterInit Mode.client (unaryClock 5)) 1).timeData.timestamp ∧
    tickTimes 5 1 = tickTimes 5 0 + 1000 :=
  c6_periodic_mode_updates unaryClock (afterInit Mode.client (unaryClock 5))
    0 5 5 0 unaryClock_strictMono rfl rfl (by decide)

/-- C7: in every reachable initialized state the widget renders the
main view (never the placeholder): the live view with the green
pulsing indicator exactly when the mode is periodic-update (`client`),
the static view with the blue indicator exactly when the mode is
no-update (`server`), and the two views are distinct. -/
theorem c7_indicator_matches_mode (s : WidgetState) (h : Reachable s)
    (hh : s.timeData.isHydrated = true) :
    (s.mode = Mode.client →
      render s.mode s.timeData
        = RenderOutput.main (liveView s.timeData.timestamp)) ∧
    (s.mode = Mode.server →
      render s.mode s.timeData
        = RenderOutput.main (staticView s.timeData.timestamp)) ∧
    liveView s.timeData.timestamp ≠ staticView s.timeData.timestamp := by
  have hne : s.timeData.timestamp ≠ "" := by
    intro he
    rw [(reachable_inv h).1, hh] at he
    exact Bool.noConfusion he
  refine ⟨?_, ?_, liveView_ne_staticView _⟩
  · intro hm
    rw [render, if_neg hne, hm]
    simp [liveView, hh]
  · intro hm
    rw [render, if_neg hne, hm]
    simp [staticView, hh]

theorem c7_witness :
    render (afterInit Mode.client sampleISO).mode
        (afterInit Mode.client sampleISO).timeData
      = RenderOutput.main
          (liveView (afterInit Mode.client sampleISO).timeData.timestamp) ∧
    liveView (afterInit Mode.client sampleISO).timeData.timestamp
      ≠ staticView (afterInit Mode.client sampleISO).timeData.timestamp := by
  have h := c7_indicator_matches_mode (afterInit Mode.client sampleISO)
    (Reachable.hydrated Mode.client sampleISO (by decide)) (by decide)
  exact ⟨h.1 rfl, h.2.2⟩

/-- C8: a firing of the armed interval replaces the timestamp text with
the clock reading and changes nothing else: the initialized flag, the
mode, the armed interval and the handle allocator are all untouched. -/
theorem c8_tick_replaces_timestamp_only (s : WidgetState) (i : Nat)
    (now : String) (h : s.activeTimer = some i) :
    (step s (Event.tick i now)).timeData.timestamp = now ∧
    (step s (Event.tick i now)).timeData.isHydrated = s.timeData.isHydrated ∧
    (step s (Event.tick i now)).mode = s.mode ∧
    (step s (Event.tick i now)).activeTimer = s.activeTimer ∧
    (step s (Event.tick i now)).nextTimer = s.nextTimer := by
  rw [step_tick_armed now h]
  exact ⟨rfl, rfl, rfl, rfl, rfl⟩

theorem c8_witness :
    (step (afterInit Mode.client sampleISO) (Event.tick 0 sampleISO)).timeData.timestamp = sampleISO ∧
    (step (afterInit Mode.client sampleISO) (Event.tick 0 sampleISO)).timeData.isHydrated
      = (afterInit Mode.client sampleISO).timeData.isHydrated ∧
    (step (afterInit Mode.client sampleISO) (Event.tick 0 sampleISO)).mode
      = (afterInit Mode.client sampleISO).mode ∧
    (step (afterInit Mode.client sampleISO) (Event.tick 0 sampleISO)).activeTimer
      = (afterInit Mode.client sampleISO).activeTimer ∧
    (step (afterInit Mode.client sampleISO) (Event.tick 0 sampleISO)).nextTimer
      = (afterInit Mode.client sampleISO).nextTimer :=
  c8_tick_replaces_timestamp_only (afterInit Mode.client sampleISO) 0 sampleISO rfl

end Preview
